import Mathlib

/-!
Verification of the `tg-tui` repository (files `tg_tui/tg.py` and
`tg_tui/tui.py`) against its natural-language specification.

Python dictionaries preserve insertion order, so every dict of the source
(`TgClient._videos`, `TgClient._loading`) is embedded as an association
list `List (Nat × _)` whose key order is the insertion order.  Remote
telegram calls (`TgClient._call` / `_call_wrap`) are effectful: each
embedded operation takes the outcome of its remote call as an explicit
`CallResult` argument and returns the new state together with an
`Except String _` mirroring the raised `TgException`.  Download callbacks
(arbitrary Python callables) are embedded by an identifier plus the one
behaviour the claims depend on: whether the call raises.
-/

namespace TgTui

/-- Outcome of a remote telegram call (`result.error` in `TgClient._call`). -/
inductive CallResult where
  | ok
  | err (info : String)
deriving DecidableEq, Repr

/-- The `TgVideo` dataclass of `tg.py`.  `duration` (a `timedelta`) is held
as seconds; sizes are the integers tdlib reports. -/
structure TgVideo where
  caption : Option String
  duration : Nat
  expected_size : Int
  downloaded_size : Int
  file_id : Nat
  message_id : Nat
  album : Option (List Nat)
  local_path : Option String := none
  source_group : Option String := none
deriving DecidableEq, Repr

/-- The `TgVideo.completed` property: `expected_size == downloaded_size`. -/
def TgVideo.completed (v : TgVideo) : Bool :=
  v.expected_size == v.downloaded_size

/-- Key lookup in an insertion-ordered dict (`d.get(k)` / `d[k]`). -/
def assocLookup {α : Type} (k : Nat) : List (Nat × α) → Option α
  | [] => none
  | p :: rest => if p.1 = k then some p.2 else assocLookup k rest

/-- In-place update of the value stored under a key, keeping dict order
(the Python code mutates the stored `TgVideo` object in place). -/
def assocUpdate {α : Type} (k : Nat) (v : α) : List (Nat × α) → List (Nat × α)
  | [] => []
  | p :: rest => if p.1 = k then (p.1, v) :: rest else p :: assocUpdate k v rest

/-- `d.pop(k)`: `some` of the dict without the entry when the key is
present, `none` when `pop` would raise `KeyError`. -/
def dictPop {α : Type} (k : Nat) : List (Nat × α) → Option (List (Nat × α))
  | [] => none
  | p :: rest =>
    if p.1 = k then some rest else (dictPop k rest).map (p :: ·)

/-- The keys of a dict, in insertion order. -/
def dictKeys {α : Type} (d : List (Nat × α)) : List Nat :=
  d.map Prod.fst

/-- The slot mapping `TgClient._loading`: scheduler slot number (the tdlib
download priority, 2..32) to the `file_id` of the video object stored there.
The Python dict stores the `TgVideo` object itself; objects reaching
`_loading` are the catalog objects keyed by their own `file_id`, and the
dataclass equality used by `_remove_from_queue` compares them through that
field, so slots are keyed here by `file_id`. -/
abbrev Loading := List (Nat × Nat)

/-- The slot scan of `TgClient.download_video`: `for i in range(2, 33)`,
stopping at the first `i not in self._loading`; `none` when the loop falls
through to its `else` clause. -/
def findSlot (loading : Loading) : Option Nat :=
  (List.range' 2 31).find? (fun i => !(dictKeys loading).contains i)

/-- `TgClient.download_video`: find a free slot; if none, return `None`
without touching state or the network.  Otherwise bind the slot
(`self._loading[i] = video`, a fresh-key dict insert, hence an append) and
only then issue the remote `downloadFile` call, whose failure raises
`TgException(f'cant downloadFile: ...')`.  Returns the state after the call
together with the returned slot or the raised exception. -/
def download_video (loading : Loading) (fid : Nat) (remote : CallResult) :
    Loading × Except String (Option Nat) :=
  match findSlot loading with
  | none => (loading, .ok none)
  | some i =>
    let loading' := loading ++ [(i, fid)]
    match remote with
    | .ok => (loading', .ok (some i))
    | .err info => (loading', .error ("cant downloadFile: " ++ info))

/-- `TgClient._remove_from_queue`: scan `self._loading.items()` in insertion
order and pop the first slot whose video equals the given one. -/
def remove_from_queue (loading : Loading) (fid : Nat) : Loading :=
  loading.eraseP (fun p => p.2 == fid)

/-- Repeated reservations: run `download_video` (with a succeeding remote
call) once per requested `file_id`, returning the final slot mapping and the
slot returned for each request in order. -/
def reserveSeq : List Nat → Loading → Loading × List (Option Nat)
  | [], l => (l, [])
  | f :: fs, l =>
    let r := download_video l f .ok
    let rest := reserveSeq fs r.1
    (rest.1, (match r.2 with | .ok o => o | .error _ => none) :: rest.2)

/-- A download callback subscribed via `add_download_callback`: a Python
callable, identified by `id` (Python compares callbacks by identity), whose
invocation either returns or raises (`raises`). -/
structure Callback where
  id : Nat
  raises : Bool
deriving DecidableEq, Repr

/-- The notification loop `for cb in self._download_callbacks: cb(video)` of
`TgClient._update_file_handler`: each callback is invoked in subscription
order; a raised exception aborts the loop and propagates.  Returns the ids
of the callbacks actually invoked, and the id of the raising callback when
the loop raised. -/
def notifyAll : List Callback → List Nat × Option Nat
  | [] => ([], none)
  | cb :: rest =>
    if cb.raises then ([cb.id], some cb.id)
    else
      let r := notifyAll rest
      (cb.id :: r.1, r.2)

/-- The mutable state of a `TgClient`: the catalog `self._videos`
(`file_id` to video, insertion-ordered), the slot mapping `self._loading`,
and `self._download_callbacks`. -/
structure ClientState where
  videos : List (Nat × TgVideo)
  loading : Loading
  callbacks : List Callback
deriving Repr

/-- An `updateFile` event as consumed by `_update_file_handler`:
`event['file']['id']` and `event['file']['local']`'s `path` and
`downloaded_size` (tdlib reports an empty string for a missing path, which
`path or None` turns into `None`). -/
structure FileEvent where
  id : Nat
  path : String
  downloaded_size : Int
deriving DecidableEq, Repr

/-- Observable steps of `_update_file_handler`, in execution order:
the slot release performed by `_remove_from_queue`, then each callback
notification. -/
inductive Action where
  | released (slot : Nat)
  | notified (cb : Nat)
deriving DecidableEq, Repr

/-- The field writes `_update_file_handler` performs on the tracked video:
`video.local_path = local_file['path'] or None` and
`video.downloaded_size = local_file['downloaded_size']`. -/
def applyEvent (video : TgVideo) (path : String) (d : Int) : TgVideo :=
  { video with
    local_path := if path = "" then none else some path,
    downloaded_size := d }

/-- `TgClient._update_file_handler`: ignore events for untracked files;
otherwise write the event's `path`/`downloaded_size` into the tracked video
object (`applyEvent`), release its scheduler slot when it is now completed,
and then notify every download callback.  Returns the new state, the trace
of observable actions in execution order, and the id of the callback whose
exception propagated out of the handler, if any. -/
def update_file_handler (st : ClientState) (ev : FileEvent) :
    ClientState × List Action × Option Nat :=
  match assocLookup ev.id st.videos with
  | none => (st, [], none)
  | some video =>
    let v : TgVideo := applyEvent video ev.path ev.downloaded_size
    let videos' := assocUpdate ev.id v st.videos
    let rel : List Action :=
      if v.completed then
        match st.loading.find? (fun p => p.2 == v.file_id) with
        | some p => [.released p.1]
        | none => []
      else []
    let loading' := if v.completed then remove_from_queue st.loading v.file_id
                    else st.loading
    let note := notifyAll st.callbacks
    ({ st with videos := videos', loading := loading' },
     rel ++ note.1.map Action.notified, note.2)

/-- `TgClient.add_download_callback`: `list.append`. -/
def add_download_callback {α : Type} (cbs : List α) (c : α) : List α :=
  cbs ++ [c]

/-- Python's `list.remove`: drop the first element equal to `c` (total here;
`remove_download_callback` only calls it on a present element). -/
def listRemove {α : Type} [DecidableEq α] (c : α) : List α → List α
  | [] => []
  | x :: rest => if x = c then rest else x :: listRemove c rest

/-- `TgClient.remove_download_callback`: `if callback in list:
list.remove(callback)`. -/
def remove_download_callback {α : Type} [DecidableEq α]
    (cbs : List α) (c : α) : List α :=
  if c ∈ cbs then listRemove c cbs else cbs

/-- `TgClient.list_videos`: `self._videos = self._fetch_page(limit)`.  The
page a remote fetch produces is an input here (`_fetch_page` builds it from
network data); the method replaces the whole catalog with it. -/
def list_videos (st : ClientState) (page : List (Nat × TgVideo)) : ClientState :=
  { st with videos := page }

/-- The dict merge `{**self._videos, **page}` of `TgClient.load_next`: keys
of the old dict first in their order, values overridden by the page, then
the page's new keys in page order. -/
def dictMerge {α : Type} (a b : List (Nat × α)) : List (Nat × α) :=
  a.map (fun p => (p.1, (assocLookup p.1 b).getD p.2)) ++
    b.filter (fun p => (assocLookup p.1 a).isNone)

/-- `TgClient.load_next`, state part: when the catalog is empty it delegates
to `list_videos` (replacing the catalog with the freshly fetched page),
otherwise it merges the fetched page over the existing catalog. -/
def load_next (st : ClientState) (page : List (Nat × TgVideo)) : ClientState :=
  if st.videos.isEmpty then list_videos st page
  else { st with videos := dictMerge st.videos page }

/-- Arguments of a `get_chat_history` fetch as issued by `_fetch_page`. -/
structure FetchRequest where
  limit : Nat
  from_message_id : Option Nat
deriving DecidableEq, Repr

/-- The fetch request `TgClient.load_next(limit)` issues: on an empty
catalog it calls `self.list_videos()` with no arguments, whose `limit`
defaults to 100 and which passes no `from_message_id`; otherwise it fetches
`limit` messages from the last catalog entry's `message_id`. -/
def load_next_request (videos : List (Nat × TgVideo)) (lim : Nat) : FetchRequest :=
  if videos.isEmpty then { limit := 100, from_message_id := none }
  else { limit := lim,
         from_message_id := videos.getLast?.map (fun p => p.2.message_id) }

/-- `TgClient.delete_message`: collect the video's own `message_id` plus its
album siblings' ids (`if video.album: ids.extend(video.album)`), issue one
`deleteMessages` call with them, and on success `self._videos.pop(file_id)`.
Returns the new state, the id lists of the delete calls issued, and the
outcome (`TgException` on remote failure, `KeyError` if `pop` misses).
`deleteIds` is the id collection step: `ids = [video.message_id]`, extended
with the album siblings when `video.album` is truthy (a non-empty list). -/
def deleteIds (video : TgVideo) : List Nat :=
  match video.album with
  | some album =>
    if album.isEmpty then [video.message_id] else video.message_id :: album
  | none => [video.message_id]

/-- The body of `TgClient.delete_message`; see `deleteIds`. -/
def delete_message (st : ClientState) (video : TgVideo) (remote : CallResult) :
    ClientState × List (List Nat) × Except String Unit :=
  let ids : List Nat := deleteIds video
  match remote with
  | .err info => (st, [ids], .error ("cant deleteMessages: " ++ info))
  | .ok =>
    match dictPop video.file_id st.videos with
    | none => (st, [ids], .error "KeyError")
    | some videos' => ({ st with videos := videos' }, [ids], .ok ())

/-- The operations the spec's slot-mapping invariant ranges over, acting on
`_loading` from its initial empty state: `download_video` (the remote
outcome does not affect the mapping, see `download_video`),
`cancel_download_video` (which calls `_remove_from_queue` before its remote
call), and the completion release inside `_update_file_handler` (also
`_remove_from_queue`). -/
inductive SlotOp where
  | start (fid : Nat)
  | cancel (fid : Nat)
  | release (fid : Nat)
deriving DecidableEq, Repr

/-- Effect of one scheduler operation on the slot mapping. -/
def slotStep (l : Loading) : SlotOp → Loading
  | .start fid => (download_video l fid .ok).1
  | .cancel fid => remove_from_queue l fid
  | .release fid => remove_from_queue l fid

/-- The slot mapping after a sequence of scheduler operations, starting
from the constructor's empty `self._loading`. -/
def slotRun (ops : List SlotOp) : Loading :=
  ops.foldl slotStep []

/-- The scrolling state of `ScrollableListMixin` in `tui.py`:
`focused_index` (a `Reactive` initialised to `None`) and `render_offset`
(initialised to `0`).  The list size `n` and the viewport height
`available_height = h` are parameters of the operations. -/
structure ScrollState where
  focused_index : Option Nat
  render_offset : Int
deriving DecidableEq, Repr

/-- `ScrollableListMixin._check_offset`: pull `render_offset` so that `pos`
lies inside the viewport `[render_offset, render_offset + h - 1]`. -/
def check_offset (h : Nat) (off pos : Int) : Int :=
  if pos > off + h - 1 then pos - h + 1
  else if pos < off then pos
  else off

/-- `ScrollableListMixin._scroll(delta)`: clear the focus when the list is
empty; reset to the top when the focused item is stale (`focused_item` is
`None` or out of range, hence `not in self.items` — the items, videos or
task ids, are never equal to `None`); otherwise move the focus by `delta`
with Python's nonnegative `%` wraparound and adjust the offset. -/
def scroll (n h : Nat) (st : ScrollState) (delta : Int) : ScrollState :=
  if n = 0 then { st with focused_index := none }
  else
    match st.focused_index with
    | some i =>
      if i < n then
        let nw : Int := ((n : Int) + (i : Int) + delta) % (n : Int)
        { focused_index := some nw.toNat
          render_offset := check_offset h st.render_offset nw }
      else { focused_index := some 0, render_offset := 0 }
    | none => { focused_index := some 0, render_offset := 0 }

/-- `ScrollableListMixin.key_home`: on a non-empty list, jump the offset and
the focus to the top. -/
def key_home (n : Nat) (st : ScrollState) : ScrollState :=
  if n = 0 then st else { focused_index := some 0, render_offset := 0 }

/-- `ScrollableListMixin.key_end`: on a non-empty list, adjust the offset
for the last index and focus it. -/
def key_end (n h : Nat) (st : ScrollState) : ScrollState :=
  if n = 0 then st
  else { focused_index := some (n - 1)
         render_offset := check_offset h st.render_offset ((n : Int) - 1) }

/-- The calls the spec's scrolling invariant ranges over. -/
inductive ScrollOp where
  | moveBy (delta : Int)
  | moveToStart
  | moveToEnd
deriving DecidableEq, Repr

/-- Effect of one scrolling call. -/
def scrollStep (n h : Nat) (st : ScrollState) : ScrollOp → ScrollState
  | .moveBy d => scroll n h st d
  | .moveToStart => key_home n st
  | .moveToEnd => key_end n h st

/-- Scrolling state after a sequence of calls, from the initial state
(`focused_index = None`, `render_offset = 0`). -/
def scrollRun (n h : Nat) (ops : List ScrollOp) : ScrollState :=
  ops.foldl (scrollStep n h) { focused_index := none, render_offset := 0 }

/-! ### Association-list helper lemmas -/

theorem assocLookup_append {α : Type} (k : Nat) (a b : List (Nat × α)) :
    assocLookup k (a ++ b) =
      match assocLookup k a with
      | some v => some v
      | none => assocLookup k b := by
  induction a with
  | nil => simp [assocLookup]
  | cons p a ih =>
    by_cases h : p.1 = k <;> simp [assocLookup, h, ih]

theorem assocLookup_merge_left {α : Type} (k : Nat) (a b : List (Nat × α)) :
    assocLookup k (a.map fun p => (p.1, (assocLookup p.1 b).getD p.2)) =
      (assocLookup k a).map (fun v => (assocLookup k b).getD v) := by
  induction a with
  | nil => simp [assocLookup]
  | cons p a ih =>
    by_cases h : p.1 = k
    · simp [assocLookup, h]
    · simp [assocLookup, h, ih]

theorem assocLookup_filter {α : Type} (k : Nat) (q : Nat × α → Bool)
    (b : List (Nat × α)) (e : α)
    (hb : assocLookup k b = some e) (hq : ∀ p : Nat × α, p.1 = k → q p = true) :
    assocLookup k (b.filter q) = some e := by
  induction b with
  | nil => simp [assocLookup] at hb
  | cons p b ih =>
    by_cases h : p.1 = k
    · rw [assocLookup, if_pos h] at hb
      rw [List.filter_cons, if_pos (hq p h), assocLookup, if_pos h]
      exact hb
    · rw [assocLookup, if_neg h] at hb
      rw [List.filter_cons]
      by_cases hqp : q p = true
      · rw [if_pos hqp, assocLookup, if_neg h]
        exact ih hb
      · rw [if_neg hqp]
        exact ih hb

theorem assocLookup_update_self {α : Type} (k : Nat) (v w : α)
    (d : List (Nat × α)) (hd : assocLookup k d = some w) :
    assocLookup k (assocUpdate k v d) = some v := by
  induction d with
  | nil => simp [assocLookup] at hd
  | cons p d ih =>
    by_cases h : p.1 = k
    · rw [assocUpdate, if_pos h, assocLookup, if_pos h]
    · rw [assocLookup, if_neg h] at hd
      rw [assocUpdate, if_neg h, assocLookup, if_neg h]
      exact ih hd

theorem dictPop_split {α : Type} (k : Nat) (w : α) (l1 l2 : List (Nat × α))
    (h : k ∉ dictKeys l1) :
    dictPop k (l1 ++ (k, w) :: l2) = some (l1 ++ l2) := by
  induction l1 with
  | nil => simp [dictPop]
  | cons p l1 ih =>
    have hp : p.1 ≠ k := by
      intro hk
      exact h (by simp [dictKeys, hk])
    have h1 : k ∉ dictKeys l1 := fun hm => h (by simp [dictKeys] at hm ⊢; right; exact hm)
    rw [List.cons_append, dictPop, if_neg hp, ih h1]
    rfl

theorem listRemove_split {α : Type} [DecidableEq α] (c : α) (l1 l2 : List α)
    (h : c ∉ l1) :
    listRemove c (l1 ++ c :: l2) = l1 ++ l2 := by
  induction l1 with
  | nil => simp [listRemove]
  | cons x l1 ih =>
    have hx : x ≠ c := fun hc => h (hc ▸ List.mem_cons_self x l1)
    have h1 : c ∉ l1 := fun hm => h (List.mem_cons_of_mem x hm)
    rw [List.cons_append, listRemove, if_neg hx, ih h1]
    exact (List.cons_append x l1 l2).symm

/-! ### Claim theorems -/

/-- Claim C1 as stated is false on the code: `download_video` binds the slot
before issuing the remote call and has no handler releasing it, so after a
failing remote call the slot mapping differs from the one before the call
(here: `[] → [(2, 5)]`). -/
theorem c1_counterexample :
    download_video [] 5 (.err "boom") =
        ([(2, 5)], .error "cant downloadFile: boom") ∧
      (download_video [] 5 (.err "boom")).1 ≠ ([] : Loading) := by
  constructor
  · rfl
  · decide

/-- Claim C1, amended: when `download_video` finds a free slot and the
remote `downloadFile` call fails, a `TgException` carrying the underlying
cause is raised to the caller, but the reserved slot is NOT released: the
mapping afterwards is the prior mapping with the new binding appended. -/
theorem c1_failure_keeps_slot_and_raises (loading : Loading) (fid : Nat)
    (info : String) (i : Nat) (h : findSlot loading = some i) :
    download_video loading fid (.err info) =
      (loading ++ [(i, fid)], .error ("cant downloadFile: " ++ info)) := by
  unfold download_video
  rw [h]

/-- Witness for `c1_failure_keeps_slot_and_raises` at the empty mapping. -/
theorem c1_witness :
    download_video [] 5 (.err "boom") =
      ([] ++ [(2, 5)], .error ("cant downloadFile: " ++ "boom")) :=
  c1_failure_keeps_slot_and_raises [] 5 "boom" 2 (by decide)

/-- Claim C9: on an empty catalog, `load_next` performs the initial fetch
through `list_videos()` with the default page size 100 (and no
`from_message_id`), ignoring its own `limit` argument; on a non-empty
catalog the fetch uses the given `limit`. -/
theorem c9_initial_fetch_uses_default_limit (videos : List (Nat × TgVideo))
    (lim lim2 : Nat) :
    (videos.isEmpty = true →
      load_next_request videos lim = { limit := 100, from_message_id := none }) ∧
    (videos.isEmpty = false → (load_next_request videos lim2).limit = lim2) := by
  constructor <;> intro h <;> simp [load_next_request, h]

/-- A concrete catalog video used by witnesses: `file_id = 1`,
`message_id = 11`, one gigabyte-scale size pair. -/
def vSample : TgVideo :=
  { caption := none, duration := 5, expected_size := 1000,
    downloaded_size := 0, file_id := 1, message_id := 11, album := none }

/-- Witness for `c9_initial_fetch_uses_default_limit`: empty catalog with
`limit = 7` fetches 100; a one-entry catalog with `limit = 7` fetches 7. -/
theorem c9_witness :
    load_next_request [] 7 = { limit := 100, from_message_id := none } ∧
      (load_next_request [(1, vSample)] 7).limit = 7 :=
  ⟨(c9_initial_fetch_uses_default_limit [] 7 7).1 (by decide),
   (c9_initial_fetch_uses_default_limit [(1, vSample)] 7 7).2 (by decide)⟩

/-- Claim C10: `remove_download_callback` on an unregistered callback is a
no-op, and on a callback registered several times it removes only the
earliest-subscribed occurrence, leaving the later ones registered. -/
theorem c10_remove_callback (c : Nat) (l l1 l2 : List Nat) :
    (c ∉ l → remove_download_callback l c = l) ∧
    (c ∉ l1 → remove_download_callback (l1 ++ c :: l2) c = l1 ++ l2) := by
  constructor
  · intro h
    rw [remove_download_callback, if_neg h]
  · intro h
    rw [remove_download_callback,
      if_pos (List.mem_append_right l1 (List.mem_cons_self c l2)),
      listRemove_split c l1 l2 h]

/-- Witness for `c10_remove_callback`: removing `5` from `[1, 2]` changes
nothing; removing `5` from `[1, 5, 5, 3]` leaves `[1, 5, 3]`. -/
theorem c10_witness :
    remove_download_callback [1, 2] 5 = [1, 2] ∧
      remove_download_callback ([1] ++ 5 :: [5, 3]) 5 = [1] ++ [5, 3] :=
  ⟨(c10_remove_callback 5 [1, 2] [1] [5, 3]).1 (by decide),
   (c10_remove_callback 5 [1, 2] [1] [5, 3]).2 (by decide)⟩

/-! ### Slot reservation (C4) -/

theorem findSlot_of_keys_range (l : Loading) (k : Nat) (hk : k < 32)
    (hkeys : dictKeys l = List.range' 2 k) :
    findSlot l = if k < 31 then some (2 + k) else none := by
  have hall : ∀ m, m < 32 →
      (List.range' 2 31).find? (fun i => !(List.range' 2 m).contains i) =
        if m < 31 then some (2 + m) else none := by decide
  rw [findSlot, hkeys]
  exact hall k hk

theorem reserveSeq_range (fids : List Nat) : ∀ (l : Loading) (k : Nat),
    dictKeys l = List.range' 2 k → k + fids.length ≤ 31 →
    dictKeys (reserveSeq fids l).1 = List.range' 2 (k + fids.length) ∧
      (reserveSeq fids l).2 = (List.range' (2 + k) fids.length).map some := by
  induction fids with
  | nil => intro l k hkeys _; simpa [reserveSeq] using hkeys
  | cons f fs ih =>
    intro l k hkeys hlen
    have hk31 : k < 31 := by
      have := hlen
      simp [List.length_cons] at this
      omega
    have hfind : findSlot l = some (2 + k) := by
      rw [findSlot_of_keys_range l k (by omega) hkeys, if_pos hk31]
    have hstep : download_video l f .ok = (l ++ [(2 + k, f)], .ok (some (2 + k))) := by
      rw [download_video, hfind]
    have hkeys' : dictKeys (l ++ [(2 + k, f)]) = List.range' 2 (k + 1) := by
      rw [dictKeys, List.map_append, ← dictKeys, hkeys]
      exact (List.range'_1_concat 2 k).symm
    have hlen' : (k + 1) + fs.length ≤ 31 := by
      simp [List.length_cons] at hlen
      omega
    have hrest := ih (l ++ [(2 + k, f)]) (k + 1) hkeys' hlen'
    rw [reserveSeq, hstep]
    refine ⟨?_, ?_⟩
    · rw [hrest.1]
      have : k + 1 + fs.length = k + (f :: fs).length := by
        simp [List.length_cons]; omega
      rw [this]
    · rw [hrest.2]
      have : List.range' (2 + k) (f :: fs).length =
          (2 + k) :: List.range' (2 + (k + 1)) fs.length := by
        rw [List.length_cons, List.range'_succ]
        have h2 : 2 + (k + 1) = 2 + k + 1 := by omega
        rw [h2]
      rw [this]
      rfl

/-- Claim C4: from an empty slot mapping, 31 reservations for distinct
items (the scan of slots `2..32` in ascending order, binding the first free
slot) return slots 2 through 32 in order, and a 32nd reservation returns
`None` leaving the slot mapping unmodified. -/
theorem c4_reserve_fills_slots (fids : List Nat) (g : Nat)
    (hlen : fids.length = 31) (hdistinct : fids.Nodup) :
    (reserveSeq fids []).2 = (List.range' 2 31).map some ∧
      download_video (reserveSeq fids []).1 g .ok =
        ((reserveSeq fids []).1, .ok none) := by
  have h := reserveSeq_range fids [] 0 (by simp [dictKeys]) (by omega)
  rw [hlen] at h
  refine ⟨by simpa using h.2, ?_⟩
  have hfind : findSlot (reserveSeq fids []).1 = none := by
    rw [findSlot_of_keys_range _ 31 (by omega) (by simpa using h.1)]
    simp
  rw [download_video, hfind]

/-- Witness for `c4_reserve_fills_slots`: the 31 distinct file ids
`0..30`, with `99` as the 32nd request. -/
theorem c4_witness :
    (reserveSeq (List.range 31) []).2 = (List.range' 2 31).map some ∧
      download_video (reserveSeq (List.range 31) []).1 99 .ok =
        ((reserveSeq (List.range 31) []).1, .ok none) :=
  c4_reserve_fills_slots (List.range 31) 99 (by simp) (List.nodup_range 31)

/-! ### Slot mapping invariants (C8) -/

theorem findSlot_not_mem (l : Loading) (i : Nat) (h : findSlot l = some i) :
    i ∉ dictKeys l := by
  have := List.find?_some h
  simpa using this

theorem slotStep_keys_nodup (l : Loading) (op : SlotOp)
    (h : (dictKeys l).Nodup) : (dictKeys (slotStep l op)).Nodup := by
  cases op with
  | start fid =>
    rw [slotStep, download_video]
    cases hf : findSlot l with
    | none => exact h
    | some i =>
      have hi : i ∉ dictKeys l := findSlot_not_mem l i hf
      have : dictKeys (l ++ [(i, fid)]) = dictKeys l ++ [i] := by
        rw [dictKeys, List.map_append]; rfl
      simpa [this, List.nodup_append] using ⟨h, hi⟩
  | cancel fid =>
    rw [slotStep, remove_from_queue]
    exact h.sublist ((l.eraseP_sublist).map Prod.fst)
  | release fid =>
    rw [slotStep, remove_from_queue]
    exact h.sublist ((l.eraseP_sublist).map Prod.fst)

theorem slotRun_keys_nodup_aux (ops : List SlotOp) : ∀ l : Loading,
    (dictKeys l).Nodup → (dictKeys (ops.foldl slotStep l)).Nodup := by
  induction ops with
  | nil => intro l h; exact h
  | cons op ops ih =>
    intro l h
    exact ih (slotStep l op) (slotStep_keys_nodup l op h)

/-- Claim C8 as stated is false on the code: `download_video` never checks
whether the video already holds a slot, so a second `start` for the same
item binds a second slot — after `[start 7, start 7]` item `7` occupies
slots 2 and 3, violating "each item occupies at most one slot". -/
theorem c8_counterexample :
    slotRun [.start 7, .start 7] = [(2, 7), (3, 7)] ∧
      ¬ ((slotRun [.start 7, .start 7]).map Prod.snd).Nodup := by
  constructor
  · rfl
  · decide

/-- Claim C8, amended: after every sequence of `download_video`,
`cancel_download_video` and completion-release operations from the empty
mapping, each slot number is bound to at most one item (the slot keys stay
distinct); an item, however, may come to occupy more than one slot when
`download_video` is called again for an item already holding one. -/
theorem c8_slot_bound_to_one_item (ops : List SlotOp) :
    (dictKeys (slotRun ops)).Nodup :=
  slotRun_keys_nodup_aux ops [] (by simp [dictKeys])

/-! ### Refetch behaviour (C2) -/

theorem assocLookup_dictMerge_right {α : Type} (k : Nat) (a b : List (Nat × α))
    (e : α) (hb : assocLookup k b = some e) :
    assocLookup k (dictMerge a b) = some e := by
  rw [dictMerge, assocLookup_append, assocLookup_merge_left]
  cases ha : assocLookup k a with
  | some v => simp [hb]
  | none =>
    simp only [Option.map_none']
    exact assocLookup_filter k _ b e hb (fun p hpk => by rw [hpk, ha]; rfl)

/-- A catalog video currently mid-download: 500 of 1000 bytes on disk. -/
def c2Tracked : TgVideo :=
  { vSample with downloaded_size := 500, local_path := some "/tmp/a.mp4" }

/-- The same message as a refetched page reports it: 0 bytes downloaded. -/
def c2Fetched : TgVideo := { vSample with downloaded_size := 0 }

/-- A client tracking `c2Tracked` (file id 1) in scheduler slot 2. -/
def c2State : ClientState :=
  { videos := [(1, c2Tracked)], loading := [(2, 1)], callbacks := [] }

/-- Claim C2 as stated is false on the code: `list_videos` replaces the
whole catalog and `load_next` merges with the page's entries winning, so a
refetched entry with the `fileId` of a slot-tracked item clobbers its
dynamic fields — here `downloaded_size` drops from 500 to 0 although file 1
occupies slot 2. -/
theorem c2_counterexample :
    (2, 1) ∈ c2State.loading ∧
      (assocLookup 1 c2State.videos).map TgVideo.downloaded_size = some 500 ∧
      (assocLookup 1 (list_videos c2State [(1, c2Fetched)]).videos).map
        TgVideo.downloaded_size = some 0 ∧
      (assocLookup 1 (load_next c2State [(1, c2Fetched)]).videos).map
        TgVideo.downloaded_size = some 0 := by
  exact ⟨by decide, rfl, rfl, rfl⟩

/-- Claim C2, amended: a refetch replaces catalog entries unconditionally —
for every item, slot-tracked or not, whose `fileId` the fetched page
contains, both `list_videos` and `load_next` leave the catalog holding
exactly the page's entry for it (dynamic fields take the refetched
values). -/
theorem c2_refetch_overwrites_tracked (st : ClientState)
    (page : List (Nat × TgVideo)) (s fid : Nat) (e : TgVideo)
    (htracked : (s, fid) ∈ st.loading)
    (hpage : assocLookup fid page = some e) :
    assocLookup fid (list_videos st page).videos = some e ∧
      assocLookup fid (load_next st page).videos = some e := by
  refine ⟨hpage, ?_⟩
  rw [load_next]
  by_cases hemp : st.videos.isEmpty
  · rw [if_pos hemp]
    exact hpage
  · rw [if_neg hemp]
    exact assocLookup_dictMerge_right fid st.videos page e hpage

/-- Witness for `c2_refetch_overwrites_tracked` at the state of
`c2_counterexample`. -/
theorem c2_witness :
    assocLookup 1 (list_videos c2State [(1, c2Fetched)]).videos =
        some c2Fetched ∧
      assocLookup 1 (load_next c2State [(1, c2Fetched)]).videos =
        some c2Fetched :=
  c2_refetch_overwrites_tracked c2State [(1, c2Fetched)] 2 1 c2Fetched
    (by decide) rfl

/-! ### Callback dispatch (C3) -/

theorem notifyAll_split (pre post : List Callback) (cb : Callback)
    (hpre : ∀ c ∈ pre, c.raises = false) (hcb : cb.raises = true) :
    notifyAll (pre ++ cb :: post) = (pre.map Callback.id ++ [cb.id], some cb.id) := by
  induction pre with
  | nil => simp [notifyAll, hcb]
  | cons c pre ih =>
    have hc : c.raises = false := hpre c (List.mem_cons_self c pre)
    have h' : ∀ x ∈ pre, x.raises = false :=
      fun x hx => hpre x (List.mem_cons_of_mem c hx)
    simp [notifyAll, hc, ih h']

/-- A client tracking `vSample` with two subscribers: callback 0 (which
raises when invoked) subscribed before callback 1 (which does not). -/
def c3State : ClientState :=
  { videos := [(1, vSample)], loading := [],
    callbacks := [{ id := 0, raises := true }, { id := 1, raises := false }] }

/-- Claim C3 as stated is false on the code: the notification loop of
`_update_file_handler` has no exception handling, so when callback 0 raises,
callback 1 — subscribed after it — is never invoked and the exception
propagates out of event dispatch. -/
theorem c3_counterexample :
    (update_file_handler c3State { id := 1, path := "", downloaded_size := 10 }).2.1 =
        [Action.notified 0] ∧
      Action.notified 1 ∉
        (update_file_handler c3State
          { id := 1, path := "", downloaded_size := 10 }).2.1 ∧
      (update_file_handler c3State
          { id := 1, path := "", downloaded_size := 10 }).2.2 = some 0 := by
  exact ⟨rfl, by decide, rfl⟩

/-- Claim C3, amended: when a tracked-item event reaches
`_update_file_handler` and some subscribed callback raises, the callbacks
subscribed before it run, the raiser is invoked, and every callback
subscribed after it is NOT invoked: the failure propagates out of event
dispatch instead of being isolated.  (Stated for a non-completing event, so
the dispatch trace is exactly the notifications.) -/
theorem c3_raising_callback_aborts_dispatch (st : ClientState) (ev : FileEvent)
    (v : TgVideo) (pre post : List Callback) (cb : Callback)
    (hv : assocLookup ev.id st.videos = some v)
    (hsize : ev.downloaded_size ≠ v.expected_size)
    (hcbs : st.callbacks = pre ++ cb :: post)
    (hpre : ∀ c ∈ pre, c.raises = false)
    (hcb : cb.raises = true) :
    (update_file_handler st ev).2.1 =
        (pre.map Callback.id ++ [cb.id]).map Action.notified ∧
      (update_file_handler st ev).2.2 = some cb.id := by
  have hcompl : (applyEvent v ev.path ev.downloaded_size).completed = false := by
    simp [TgVideo.completed, applyEvent]
    exact fun h => hsize h.symm
  simp only [update_file_handler, hv, hcompl, hcbs,
    notifyAll_split pre post cb hpre hcb]
  simp

/-- Witness for `c3_raising_callback_aborts_dispatch` at `c3State` with an
event reporting 10 of 1000 bytes. -/
theorem c3_witness :
    (update_file_handler c3State { id := 1, path := "", downloaded_size := 10 }).2.1 =
        (([] : List Callback).map Callback.id ++ [0]).map Action.notified ∧
      (update_file_handler c3State
          { id := 1, path := "", downloaded_size := 10 }).2.2 = some 0 :=
  c3_raising_callback_aborts_dispatch c3State
    { id := 1, path := "", downloaded_size := 10 } vSample
    [] [{ id := 1, raises := false }] { id := 0, raises := true }
    rfl (by decide) rfl (by decide) rfl

/-! ### Message deletion (C7) -/

theorem deleteIds_eq (video : TgVideo) :
    deleteIds video = video.message_id :: video.album.getD [] := by
  cases h : video.album with
  | none => simp [deleteIds, h]
  | some a => cases a with
    | nil => simp [deleteIds, h]
    | cons x xs => simp [deleteIds, h]

/-- Claim C7: `delete_message` issues exactly one remote `deleteMessages`
call listing the item's own message id plus all its album sibling ids; on
success it removes exactly that one item from the catalog, and on remote
failure it raises the typed `TgException` leaving the catalog unchanged. -/
theorem c7_delete_message_atomic (st : ClientState) (video : TgVideo)
    (info : String) (l1 l2 : List (Nat × TgVideo)) (w : TgVideo)
    (hnotin : video.file_id ∉ dictKeys l1)
    (hsplit : st.videos = l1 ++ (video.file_id, w) :: l2) :
    (∀ r : CallResult, (delete_message st video r).2.1 =
        [video.message_id :: video.album.getD []]) ∧
      (delete_message st video .ok).1 = { st with videos := l1 ++ l2 } ∧
      (delete_message st video .ok).2.2 = .ok () ∧
      (delete_message st video (.err info)).1 = st ∧
      (delete_message st video (.err info)).2.2 =
        .error ("cant deleteMessages: " ++ info) := by
  have hpop : dictPop video.file_id st.videos = some (l1 ++ l2) := by
    rw [hsplit]
    exact dictPop_split video.file_id w l1 l2 hnotin
  refine ⟨fun r => ?_, ?_, ?_, ?_, ?_⟩
  · cases r <;> simp [delete_message, hpop, deleteIds_eq]
  · simp [delete_message, hpop]
  · simp [delete_message, hpop]
  · simp [delete_message]
  · simp [delete_message]

/-- The sole video of a three-message album: its two sibling text messages
have ids 12 and 13. -/
def c7Video : TgVideo := { vSample with album := some [12, 13] }

/-- A second catalog video unrelated to the album. -/
def c7Other : TgVideo := { vSample with file_id := 0, message_id := 10 }

/-- A client whose catalog holds `c7Other` (file id 0) and `c7Video`
(file id 1). -/
def c7State : ClientState :=
  { videos := [(0, c7Other), (1, c7Video)], loading := [], callbacks := [] }

/-- Witness for `c7_delete_message_atomic`: deleting `c7Video` from
`c7State` issues one call for message ids `[11, 12, 13]` and removes only
its entry; a failing call leaves the catalog as it was. -/
theorem c7_witness :
    (∀ r : CallResult, (delete_message c7State c7Video r).2.1 =
        [c7Video.message_id :: c7Video.album.getD []]) ∧
      (delete_message c7State c7Video .ok).1 =
        { c7State with videos := [(0, c7Other)] ++ [] } ∧
      (delete_message c7State c7Video .ok).2.2 = .ok () ∧
      (delete_message c7State c7Video (.err "net")).1 = c7State ∧
      (delete_message c7State c7Video (.err "net")).2.2 =
        .error ("cant deleteMessages: " ++ "net") :=
  c7_delete_message_atomic c7State c7Video "net"
    [(0, c7Other)] [] c7Video (by decide) rfl

/-! ### Completion detection and slot release (C5) -/

theorem update_file_handler_tracked (st : ClientState) (v : TgVideo)
    (fid : Nat) (path : String) (d : Int)
    (hv : assocLookup fid st.videos = some v) (hfid : v.file_id = fid) :
    update_file_handler st { id := fid, path := path, downloaded_size := d } =
      ({ st with
          videos := assocUpdate fid (applyEvent v path d) st.videos,
          loading :=
            if (applyEvent v path d).completed then
              remove_from_queue st.loading fid
            else st.loading },
        (if (applyEvent v path d).completed then
            match st.loading.find? (fun p => p.2 == fid) with
            | some p => [Action.released p.1]
            | none => []
          else []) ++ (notifyAll st.callbacks).1.map Action.notified,
        (notifyAll st.callbacks).2) := by
  simp only [update_file_handler, hv]
  rw [show (applyEvent v path d).file_id = fid from hfid]

theorem applyEvent_not_completed (v : TgVideo) (path : String) (d : Int)
    (hexp : v.expected_size = 1000) (hd : d ≠ 1000) :
    (applyEvent v path d).completed = false := by
  simp [TgVideo.completed, applyEvent, hexp]
  exact fun h => hd h.symm

theorem applyEvent_completed (v : TgVideo) (path : String)
    (hexp : v.expected_size = 1000) :
    (applyEvent v path 1000).completed = true := by
  simp [TgVideo.completed, applyEvent, hexp]

/-- Claim C5: for an item with `expected_size = 1000` holding a slot,
events with `downloaded_size` 200, 600, 1000 delivered in order through
`_update_file_handler` yield exactly one transition to completed, on the
third event; during that third event the slot is released (the `released`
action precedes every subscriber notification in the trace), and the slot
mapping is untouched by the first two events. -/
theorem c5_completion_releases_slot (st st1 st2 st3 : ClientState)
    (t1 t2 t3 : List Action) (x1 x2 x3 : Option Nat)
    (v : TgVideo) (fid s : Nat) (p1 p2 p3 : String)
    (hv : assocLookup fid st.videos = some v)
    (hfid : v.file_id = fid)
    (hexp : v.expected_size = 1000)
    (hfind : st.loading.find? (fun p => p.2 == fid) = some (s, fid))
    (h1 : update_file_handler st { id := fid, path := p1, downloaded_size := 200 } =
      (st1, t1, x1))
    (h2 : update_file_handler st1 { id := fid, path := p2, downloaded_size := 600 } =
      (st2, t2, x2))
    (h3 : update_file_handler st2 { id := fid, path := p3, downloaded_size := 1000 } =
      (st3, t3, x3)) :
    (assocLookup fid st1.videos).map TgVideo.completed = some false ∧
      (assocLookup fid st2.videos).map TgVideo.completed = some false ∧
      (assocLookup fid st3.videos).map TgVideo.completed = some true ∧
      st1.loading = st.loading ∧ st2.loading = st.loading ∧
      (∀ k, Action.released k ∉ t1) ∧ (∀ k, Action.released k ∉ t2) ∧
      st3.loading = remove_from_queue st.loading fid ∧
      t3 = Action.released s :: (notifyAll st.callbacks).1.map Action.notified := by
  have hnc1 : (applyEvent v p1 200).completed = false :=
    applyEvent_not_completed v p1 200 hexp (by decide)
  rw [update_file_handler_tracked st v fid p1 200 hv hfid, hnc1] at h1
  have hst1 : st1 = { st with videos := assocUpdate fid (applyEvent v p1 200) st.videos } := by
    have := congrArg Prod.fst h1
    simpa using this.symm
  have ht1 : t1 = (notifyAll st.callbacks).1.map Action.notified := by
    have := congrArg (fun q => q.2.1) h1
    simpa using this.symm
  have hv1 : assocLookup fid st1.videos = some (applyEvent v p1 200) := by
    rw [hst1]
    exact assocLookup_update_self fid (applyEvent v p1 200) v st.videos hv
  have hfid1 : (applyEvent v p1 200).file_id = fid := hfid
  have hexp1 : (applyEvent v p1 200).expected_size = 1000 := hexp
  have hnc2 : (applyEvent (applyEvent v p1 200) p2 600).completed = false :=
    applyEvent_not_completed _ p2 600 hexp1 (by decide)
  rw [update_file_handler_tracked st1 (applyEvent v p1 200) fid p2 600 hv1 hfid1,
    hnc2] at h2
  have hload1 : st1.loading = st.loading := by rw [hst1]
  have hcb1 : st1.callbacks = st.callbacks := by rw [hst1]
  have hst2 : st2 = { st1 with
      videos := assocUpdate fid (applyEvent (applyEvent v p1 200) p2 600) st1.videos } := by
    have := congrArg Prod.fst h2
    simpa using this.symm
  have ht2 : t2 = (notifyAll st1.callbacks).1.map Action.notified := by
    have := congrArg (fun q => q.2.1) h2
    simpa using this.symm
  have hv2 : assocLookup fid st2.videos =
      some (applyEvent (applyEvent v p1 200) p2 600) := by
    rw [hst2]
    exact assocLookup_update_self fid _ (applyEvent v p1 200) st1.videos hv1
  have hfid2 : (applyEvent (applyEvent v p1 200) p2 600).file_id = fid := hfid
  have hexp2 : (applyEvent (applyEvent v p1 200) p2 600).expected_size = 1000 := hexp
  have hload2 : st2.loading = st.loading := by rw [hst2]; exact hload1
  have hcb2 : st2.callbacks = st.callbacks := by rw [hst2]; exact hcb1
  have hc3 : (applyEvent (applyEvent (applyEvent v p1 200) p2 600) p3 1000).completed = true :=
    applyEvent_completed _ p3 hexp2
  rw [update_file_handler_tracked st2 (applyEvent (applyEvent v p1 200) p2 600)
    fid p3 1000 hv2 hfid2, hc3] at h3
  rw [hload2, hfind] at h3
  have hst3 : st3 = { st2 with
      videos := assocUpdate fid
        (applyEvent (applyEvent (applyEvent v p1 200) p2 600) p3 1000) st2.videos,
      loading := remove_from_queue st.loading fid } := by
    have := congrArg Prod.fst h3
    simpa using this.symm
  have ht3 : t3 = Action.released s ::
      (notifyAll st2.callbacks).1.map Action.notified := by
    have := congrArg (fun q => q.2.1) h3
    simpa using this.symm
  have hv3 : assocLookup fid st3.videos =
      some (applyEvent (applyEvent (applyEvent v p1 200) p2 600) p3 1000) := by
    rw [hst3]
    exact assocLookup_update_self fid _ _ st2.videos hv2
  refine ⟨?_, ?_, ?_, hload1, hload2, ?_, ?_, ?_, ?_⟩
  · rw [hv1, Option.map_some', hnc1]
  · rw [hv2, Option.map_some', hnc2]
  · rw [hv3, Option.map_some', hc3]
  · intro k hk
    rw [ht1] at hk
    rcases List.mem_map.1 hk with ⟨c, _, hc⟩
    exact Action.noConfusion hc
  · intro k hk
    rw [ht2] at hk
    rcases List.mem_map.1 hk with ⟨c, _, hc⟩
    exact Action.noConfusion hc
  · rw [hst3]
  · rw [ht3, hcb2]

/-- A client tracking `vSample` (file id 1, expected 1000) in slot 2, with
one well-behaved subscriber. -/
def c5State : ClientState :=
  { videos := [(1, vSample)], loading := [(2, 1)],
    callbacks := [{ id := 0, raises := false }] }

/-- `vSample` after an event wrote `downloaded_size = d` and
`local_path = lp` into it. -/
def c5V (d : Int) (lp : Option String) : TgVideo :=
  { vSample with downloaded_size := d, local_path := lp }

/-- Witness for `c5_completion_releases_slot` at `c5State`: the slot stays
bound through 200 and 600, and event 1000 releases slot 2 before the
notification of subscriber 0. -/
theorem c5_witness :
    (assocLookup 1 ([(1, c5V 200 none)] : List (Nat × TgVideo))).map
        TgVideo.completed = some false ∧
      (assocLookup 1 ([(1, c5V 600 none)] : List (Nat × TgVideo))).map
        TgVideo.completed = some false ∧
      (assocLookup 1
          ([(1, c5V 1000 (some "/tmp/v.mp4"))] : List (Nat × TgVideo))).map
        TgVideo.completed = some true ∧
      ([(2, 1)] : Loading) = c5State.loading ∧
      ([(2, 1)] : Loading) = c5State.loading ∧
      (∀ k, Action.released k ∉ [Action.notified 0]) ∧
      (∀ k, Action.released k ∉ [Action.notified 0]) ∧
      ([] : Loading) = remove_from_queue c5State.loading 1 ∧
      [Action.released 2, Action.notified 0] =
        Action.released 2 :: (notifyAll c5State.callbacks).1.map Action.notified :=
  c5_completion_releases_slot c5State
    { c5State with videos := [(1, c5V 200 none)] }
    { c5State with videos := [(1, c5V 600 none)] }
    { videos := [(1, c5V 1000 (some "/tmp/v.mp4"))], loading := [],
      callbacks := c5State.callbacks }
    [Action.notified 0] [Action.notified 0]
    [Action.released 2, Action.notified 0]
    none none none vSample 1 2 "" "" "/tmp/v.mp4"
    rfl rfl rfl rfl rfl rfl rfl

/-! ### Scrolling invariant (C6) -/

theorem check_offset_bounds (h : Nat) (off pos : Int) (hh : 1 ≤ h)
    (hoff : 0 ≤ off) (hpos : 0 ≤ pos) :
    0 ≤ check_offset h off pos ∧ check_offset h off pos ≤ pos ∧
      pos ≤ check_offset h off pos + h - 1 := by
  rw [check_offset]
  split
  · omega
  · split <;> omega

theorem scrollStep_inv (n h : Nat) (hn : 1 ≤ n) (hh : 1 ≤ h)
    (st : ScrollState) (op : ScrollOp)
    (hoff : 0 ≤ st.render_offset)
    (hfoc : ∀ j, st.focused_index = some j →
      st.render_offset ≤ (j : Int) ∧
        (j : Int) ≤ st.render_offset + h - 1 ∧ j < n) :
    0 ≤ (scrollStep n h st op).render_offset ∧
      ∀ j, (scrollStep n h st op).focused_index = some j →
        (scrollStep n h st op).render_offset ≤ (j : Int) ∧
          (j : Int) ≤ (scrollStep n h st op).render_offset + h - 1 ∧ j < n := by
  have hn0 : n ≠ 0 := by omega
  cases op with
  | moveBy d =>
    rw [scrollStep, scroll, if_neg hn0]
    cases hf : st.focused_index with
    | none =>
      refine ⟨by simp, fun j hj => ?_⟩
      simp at hj
      subst hj
      simp
      omega
    | some i =>
      dsimp only
      by_cases hi : i < n
      · rw [if_pos hi]
        have hmod0 : 0 ≤ ((n : Int) + (i : Int) + d) % (n : Int) :=
          Int.emod_nonneg _ (by exact_mod_cast hn0)
        have hmodn : ((n : Int) + (i : Int) + d) % (n : Int) < (n : Int) :=
          Int.emod_lt_of_pos _ (by exact_mod_cast Nat.pos_of_ne_zero hn0)
        have hb := check_offset_bounds h st.render_offset
          (((n : Int) + (i : Int) + d) % (n : Int)) hh hoff hmod0
        refine ⟨hb.1, fun j hj => ?_⟩
        simp at hj
        subst hj
        rw [Int.toNat_of_nonneg hmod0]
        refine ⟨hb.2.1, hb.2.2, ?_⟩
        omega
      · rw [if_neg hi]
        refine ⟨by simp, fun j hj => ?_⟩
        simp at hj
        subst hj
        simp
        omega
  | moveToStart =>
    rw [scrollStep, key_home, if_neg hn0]
    refine ⟨by simp, fun j hj => ?_⟩
    simp at hj
    subst hj
    simp
    omega
  | moveToEnd =>
    rw [scrollStep, key_end, if_neg hn0]
    have hb := check_offset_bounds h st.render_offset ((n : Int) - 1) hh hoff
      (by omega)
    refine ⟨hb.1, fun j hj => ?_⟩
    simp at hj
    subst hj
    have hcast : ((n - 1 : Nat) : Int) = (n : Int) - 1 := by omega
    rw [hcast]
    exact ⟨hb.2.1, hb.2.2, by omega⟩

theorem scrollRun_inv_aux (n h : Nat) (hn : 1 ≤ n) (hh : 1 ≤ h)
    (ops : List ScrollOp) : ∀ st : ScrollState,
    0 ≤ st.render_offset →
    (∀ j, st.focused_index = some j →
      st.render_offset ≤ (j : Int) ∧
        (j : Int) ≤ st.render_offset + h - 1 ∧ j < n) →
    0 ≤ (ops.foldl (scrollStep n h) st).render_offset ∧
      ∀ j, (ops.foldl (scrollStep n h) st).focused_index = some j →
        (ops.foldl (scrollStep n h) st).render_offset ≤ (j : Int) ∧
          (j : Int) ≤ (ops.foldl (scrollStep n h) st).render_offset + h - 1 ∧
          j < n := by
  induction ops with
  | nil => intro st hoff hfoc; exact ⟨hoff, hfoc⟩
  | cons op ops ih =>
    intro st hoff hfoc
    have hstep := scrollStep_inv n h hn hh st op hoff hfoc
    exact ih (scrollStep n h st op) hstep.1 hstep.2

/-- Claim C6: for a list of fixed size `n ≥ 1` and viewport height `h ≥ 1`,
after every sequence of `_scroll` / `key_home` / `key_end` calls from the
initial state, whenever the focus is set at index `i`:
`0 ≤ offset ≤ i ≤ offset + h - 1` and `i ≤ n - 1` (`_scroll` wraps the
focus modulo `n` in both directions). -/
theorem c6_scroll_invariant (n h : Nat) (ops : List ScrollOp) (i : Nat)
    (hn : 1 ≤ n) (hh : 1 ≤ h)
    (hfocus : (scrollRun n h ops).focused_index = some i) :
    0 ≤ (scrollRun n h ops).render_offset ∧
      (scrollRun n h ops).render_offset ≤ (i : Int) ∧
      (i : Int) ≤ (scrollRun n h ops).render_offset + h - 1 ∧
      i ≤ n - 1 := by
  have := scrollRun_inv_aux n h hn hh ops
    { focused_index := none, render_offset := 0 } (by simp) (by simp)
  rw [scrollRun] at hfocus ⊢
  have hres := this.2 i hfocus
  exact ⟨this.1, hres.1, hres.2.1, by omega⟩

/-- Witness for `c6_scroll_invariant`: `n = 3`, `h = 2`, a downward move,
a two-step upward (wrapping) move, then `key_end`; the run ends focused on
index 2 with offset 1. -/
theorem c6_witness :
    0 ≤ (scrollRun 3 2 [.moveBy 1, .moveBy (-2), .moveToEnd]).render_offset ∧
      (scrollRun 3 2 [.moveBy 1, .moveBy (-2), .moveToEnd]).render_offset ≤
        ((2 : Nat) : Int) ∧
      ((2 : Nat) : Int) ≤
        (scrollRun 3 2 [.moveBy 1, .moveBy (-2), .moveToEnd]).render_offset +
          2 - 1 ∧
      2 ≤ 3 - 1 :=
  c6_scroll_invariant 3 2 [.moveBy 1, .moveBy (-2), .moveToEnd] 2
    (by decide) (by decide) (by decide)

end TgTui
